import Mathlib

/-!
Verification of the fiscal-period / exemption-phase engine and the EGIS
aggregation helpers of the Boston property-lookup application.

The frontend's date logic (frontend/src/utils/fiscalData.ts and the periods
utilities) manipulates JavaScript Date values.  We embed an instant as a
natural number of milliseconds counted from midnight of January 1 of
(proleptic Gregorian) year 0; JS Date accessors (getFullYear, getMonth,
getDay) become arithmetic on that count.  Local-time DST shifts are not
modelled (all anchor dates are local midnights and the code only adds whole
days), and message templating (periodsLanguage.ts, YAML driven) is modelled
by recording the template key and parameter values the source passes, since
no verified property depends on the rendered text.
-/

set_option maxHeartbeats 1000000

/-- Milliseconds per day, the unit conversion used by JS Date arithmetic. -/
def msPerDay : Nat := 86400000

/-- Gregorian leap-year test (divisible by 4 and not by 100, or by 400). -/
def isLeap (y : Nat) : Bool :=
  (y % 4 == 0 && y % 100 != 0) || y % 400 == 0

/-- Cumulative day count of the months preceding 0-indexed month m, in a
non-leap year (JS month numbering: 0 = January ... 11 = December). -/
def monthOffset : Nat → Nat
  | 0 => 0
  | 1 => 31
  | 2 => 59
  | 3 => 90
  | 4 => 120
  | 5 => 151
  | 6 => 181
  | 7 => 212
  | 8 => 243
  | 9 => 273
  | 10 => 304
  | _ => 334

/-- Days before 0-indexed month m in a year with the given leap flag. -/
def daysBeforeMonth (m : Nat) (leap : Bool) : Nat :=
  monthOffset m + (if 2 ≤ m then (if leap then 1 else 0) else 0)

/-- Number of days in 0-indexed month m of year y. -/
def daysInMonth (y m : Nat) : Nat :=
  match m with
  | 0 => 31
  | 1 => if isLeap y then 29 else 28
  | 2 => 31
  | 3 => 30
  | 4 => 31
  | 5 => 30
  | 6 => 31
  | 7 => 31
  | 8 => 30
  | 9 => 31
  | 10 => 30
  | _ => 31

/-- daysInMonth with the leap flag passed explicitly (for bounded checks). -/
def daysInMonthB (m : Nat) (leap : Bool) : Nat :=
  match m with
  | 0 => 31
  | 1 => if leap then 29 else 28
  | 2 => 31
  | 3 => 30
  | 4 => 31
  | 5 => 30
  | 6 => 31
  | 7 => 31
  | 8 => 30
  | 9 => 31
  | 10 => 30
  | _ => 31

/-- Days from Jan 1 of year 0 to Jan 1 of year y (proleptic Gregorian):
365 per year plus one per leap year z with 0 ≤ z < y (year 0 is leap). -/
def daysBeforeYear (y : Nat) : Nat :=
  365 * y + (y + 3) / 4 + (y + 399) / 400 - (y + 99) / 100

/-- Day number (days since 0000-01-01) of year y, 0-indexed month m, day d. -/
def dayNumber (y m d : Nat) : Nat :=
  daysBeforeYear y + daysBeforeMonth m (isLeap y) + (d - 1)

/-- The instant of local midnight of (y, m, d); the embedding of the JS
constructor new Date(y, m, d). -/
def mkDateMs (y m d : Nat) : Nat :=
  msPerDay * dayNumber y m d

/-- An instant within day (y, m, d), ms milliseconds after midnight. -/
def mkInstant (y m d ms : Nat) : Nat :=
  mkDateMs y m d + ms

/-- The tuple (y, m, d, ms) denotes an actual calendar instant. -/
abbrev ValidCivil (y m d ms : Nat) : Prop :=
  m < 12 ∧ 1 ≤ d ∧ d ≤ daysInMonth y m ∧ ms < msPerDay

/-- Day of week of an instant, JS numbering (0 = Sunday ... 6 = Saturday).
Jan 1 of year 0 is a Saturday in the proleptic Gregorian calendar, so the
day count offset is 6. -/
def getDay (t : Nat) : Nat :=
  (t / msPerDay + 6) % 7

/-- Embedding of getNextMonday from frontend/src/utils/periods.ts: shift a
Saturday by two days and a Sunday by one day, otherwise return the date
unchanged. -/
def getNextMonday (t : Nat) : Nat :=
  if getDay t = 6 then t + 2 * msPerDay
  else if getDay t = 0 then t + msPerDay
  else t

/-- Calendar year containing a given day number: estimate via the average
Gregorian year length of 146097/400 days, then correct by at most one in
either direction. -/
def yearFromDays (d : Nat) : Nat :=
  let a := 400 * d / 146097
  if d < daysBeforeYear a then a - 1
  else if d < daysBeforeYear (a + 1) then a
  else a + 1

/-- The JS accessor date.getFullYear(): the unique y with
Jan 1 of y ≤ t < Jan 1 of (y+1). -/
def getFullYear (t : Nat) : Nat :=
  yearFromDays (t / msPerDay)

/-- Month index (0-based) from a day-of-year offset, given the leap flag. -/
def monthFromDoy (doy : Nat) (leap : Bool) : Nat :=
  if doy < daysBeforeMonth 1 leap then 0
  else if doy < daysBeforeMonth 2 leap then 1
  else if doy < daysBeforeMonth 3 leap then 2
  else if doy < daysBeforeMonth 4 leap then 3
  else if doy < daysBeforeMonth 5 leap then 4
  else if doy < daysBeforeMonth 6 leap then 5
  else if doy < daysBeforeMonth 7 leap then 6
  else if doy < daysBeforeMonth 8 leap then 7
  else if doy < daysBeforeMonth 9 leap then 8
  else if doy < daysBeforeMonth 10 leap then 9
  else if doy < daysBeforeMonth 11 leap then 10
  else 11

/-- The JS accessor date.getMonth() (0-indexed month of the instant). -/
def getMonth (t : Nat) : Nat :=
  monthFromDoy (t / msPerDay - daysBeforeYear (getFullYear t)) (isLeap (getFullYear t))

/-- A named fiscal milestone, as the timepoint objects of periods.ts.  The
label strings are resolved from YAML by getTimepointLabel; we record the
lookup key, since no property depends on the display text. -/
structure Timepoint where
  label : String
  getDate : Nat → Nat

/-- Jan 1 of the given year. -/
def NEW_APPLICATION_PERIOD_BEGINS : Timepoint :=
  { label := "new_application_period_begins"
    getDate := fun year => mkDateMs year 0 1 }

/-- Next Monday on or after Feb 1 of the given year. -/
def ABATEMENT_APPLICATION_DEADLINE : Timepoint :=
  { label := "abatement_application_deadline"
    getDate := fun year => getNextMonday (mkDateMs year 1 1) }

/-- Mar 1 of the given year. -/
def EXEMPTIONS_IN_PROGRESS : Timepoint :=
  { label := "exemptions_in_progress"
    getDate := fun year => mkDateMs year 2 1 }

/-- Next Monday on or after Apr 1 of the given year. -/
def EXEMPTION_APPLICATION_DEADLINE : Timepoint :=
  { label := "exemption_application_deadline"
    getDate := fun year => getNextMonday (mkDateMs year 3 1) }

/-- Jul 1 of the given year (fiscal-year start). -/
def NEW_FY_PRELIMINARY_TAX_PERIOD_BEGINS : Timepoint :=
  { label := "new_fy_preliminary_tax_period_begins"
    getDate := fun year => mkDateMs year 6 1 }

/-- Abatement deadline plus 28 days (setDate(getDate() + 28) in the source). -/
def ABATEMENT_GRACE_PERIOD_DEADLINE : Timepoint :=
  { label := "abatement_grace_period_deadline"
    getDate := fun year =>
      ABATEMENT_APPLICATION_DEADLINE.getDate year + 28 * msPerDay }

/-- Duplicate of the exemption deadline used by getExemptionPhase
(EXEMPTION_APPLICATION_DEADLINE_DATE in the source). -/
def EXEMPTION_APPLICATION_DEADLINE_DATE : Timepoint :=
  { label := "Exemption Application Deadline"
    getDate := fun year => getNextMonday (mkDateMs year 3 1) }

/-- Fiscal year of a date (frontend getFiscalYear): month ≥ July means the
fiscal year named after the next calendar year. -/
def getFiscalYear (t : Nat) : Nat :=
  if 6 ≤ getMonth t then getFullYear t + 1 else getFullYear t

/-- Result of the backend's getFiscalYearAndQuarter. -/
structure FiscalYearQuarter where
  year : Nat
  quarter : String
deriving DecidableEq

/-- Embedding of getFiscalYearAndQuarter from functions/src/index.ts. -/
def getFiscalYearAndQuarter (t : Nat) : FiscalYearQuarter :=
  if getMonth t < 6 then { year := getFullYear t, quarter := "3" }
  else { year := getFullYear t + 1, quarter := "1" }

/-- Parameters passed to getAbatementPhaseMessage, one constructor per
distinct call site of getAbatementPhase; mfallback marks the final
catch-all call with an empty parameter map. -/
inductive AbatementMessage where
  | mopen (next_year : Nat) (deadline_date : Nat) (current_year : Nat)
      (parcel_id : Option String)
  | mafter (next_year : Nat) (current_year : Nat) (deadline_date : Nat)
  | mprelim (current_fy : Nat) (current_year : Nat) (next_fy : Nat)
      (next_jan1_date : Nat)
  | mfallback
deriving DecidableEq

/-- Value returned by getAbatementPhase; deadline is absent (none) exactly
in the catch-all branch, as in the source object literals. -/
structure AbatementPhaseResult where
  phase : String
  message : AbatementMessage
  deadline : Option Nat
deriving DecidableEq

/-- Embedding of getAbatementPhase from fiscalData.ts: branch windows are
computed from the year of the date argument; the year parameter feeds only
the message parameters. -/
def getAbatementPhase (date : Nat) (year : Nat) (parcelId : Option String) :
    AbatementPhaseResult :=
  let currentYear := getFullYear date
  let jan1 := NEW_APPLICATION_PERIOD_BEGINS.getDate currentYear
  let abatementDeadline := ABATEMENT_APPLICATION_DEADLINE.getDate currentYear
  let july1 := NEW_FY_PRELIMINARY_TAX_PERIOD_BEGINS.getDate currentYear
  let nextJan1 := NEW_APPLICATION_PERIOD_BEGINS.getDate (currentYear + 1)
  if jan1 ≤ date ∧ date ≤ abatementDeadline then
    { phase := "open"
      message := AbatementMessage.mopen (year + 1) abatementDeadline year parcelId
      deadline := some abatementDeadline }
  else if abatementDeadline < date ∧ date < july1 then
    { phase := "after_deadline"
      message := AbatementMessage.mafter (year + 1) year abatementDeadline
      deadline := some abatementDeadline }
  else if july1 ≤ date ∧ date < nextJan1 then
    { phase := "preliminary"
      message := AbatementMessage.mprelim (currentYear + 1) (currentYear + 1)
        (currentYear + 2) nextJan1
      deadline := some abatementDeadline }
  else
    { phase := "preliminary"
      message := AbatementMessage.mfallback
      deadline := none }

/-- The JS String.prototype.trim (drop whitespace at both ends), defined
over the character list so that terms reduce inside the kernel. -/
def jsTrim (s : String) : String :=
  String.mk (((s.data.dropWhile Char.isWhitespace).reverse.dropWhile
    Char.isWhitespace).reverse)

/-- The JS String.prototype.toLowerCase, defined over the character list
so that terms reduce inside the kernel. -/
def jsToLower (s : String) : String :=
  String.mk (s.data.map Char.toLower)

/-- Parameters passed to getExemptionPhaseMessage, one constructor per call
site of getExemptionPhase; mempty is the literal empty-string message of
the final catch-all branch. -/
inductive ExemptionMessage where
  | mbefore (exemption_type : String) (next_year : Nat) (jan1_date : Nat)
      (current_year : Nat)
  | mopen (exemption_type : String) (next_year : Nat) (deadline_date : Nat)
      (current_year : Nat)
  | mafter (exemption_type : String) (next_year : Nat) (deadline_date : Nat)
      (next_fy : Nat) (next_jan1_date : Nat) (current_year : Nat)
  | mprelim (current_fy : Nat) (exemption_type_lower : String) (next_fy : Nat)
      (next_jan1_date : Nat)
  | mempty
deriving DecidableEq

/-- Value returned by getExemptionPhase; deadline is present exactly in the
branches whose source object literal carries it. -/
structure ExemptionPhaseResult where
  phase : String
  message : ExemptionMessage
  deadline : Option Nat
deriving DecidableEq

/-- Embedding of getExemptionPhase from fiscalData.ts: branch windows are
computed from the year parameter; grantedCount is accepted but unused by
branching, exactly as in the source. -/
def getExemptionPhase (date : Nat) (year : Nat) (grantedCount : Nat)
    (etype : String) : ExemptionPhaseResult :=
  let jan1 := NEW_APPLICATION_PERIOD_BEGINS.getDate year
  let deadline := EXEMPTION_APPLICATION_DEADLINE_DATE.getDate year
  let july1 := NEW_FY_PRELIMINARY_TAX_PERIOD_BEGINS.getDate year
  let nextJan1 := NEW_APPLICATION_PERIOD_BEGINS.getDate (year + 1)
  if date < jan1 then
    { phase := "before_jan1"
      message := ExemptionMessage.mbefore etype (year + 1) jan1 year
      deadline := none }
  else if jan1 ≤ date ∧ date ≤ deadline then
    { phase := "open"
      message := ExemptionMessage.mopen etype (year + 1) deadline year
      deadline := some deadline }
  else if deadline ≤ date ∧ date < july1 then
    { phase := "after_deadline"
      message := ExemptionMessage.mafter etype (year + 1) deadline (year + 2)
        nextJan1 year
      deadline := some deadline }
  else if july1 ≤ date ∧ date < nextJan1 then
    { phase := "preliminary"
      message := ExemptionMessage.mprelim (year + 1) (jsToLower etype) (year + 2)
        nextJan1
      deadline := some deadline }
  else
    { phase := "before_jan1"
      message := ExemptionMessage.mempty
      deadline := none }

/-- Residential and commercial tax rates (dollars per 1000 of value). -/
structure TaxRates where
  residential : Rat
  commercial : Rat
deriving DecidableEq

/-- Per-fiscal-year configuration entry.  The owner-disclaimer dates also
present in the YAML are omitted: no verified claim touches them. -/
structure FiscalYearData where
  taxRates : TaxRates
deriving DecidableEq

/-- The fiscalData.yaml configuration, passed explicitly (the source reads
a module-level constant loaded from YAML). -/
structure FiscalDataConfig where
  fiscalYears : List (Nat × FiscalYearData)
  defaultTaxRates : TaxRates

/-- Embedding of getLatestFiscalYear: max over the configured year keys. -/
def getLatestFiscalYear (c : FiscalDataConfig) : Nat :=
  (c.fiscalYears.map Prod.fst).foldr max 0

/-- Embedding of getTaxRates from fiscalData.ts: exact year match first,
then forward-fill from the latest configured year for future years, then
the static defaults. -/
def getTaxRates (c : FiscalDataConfig) (fiscalYear : Nat) : TaxRates :=
  match c.fiscalYears.lookup fiscalYear with
  | some yearData => yearData.taxRates
  | none =>
    if getLatestFiscalYear c < fiscalYear then
      match c.fiscalYears.lookup (getLatestFiscalYear c) with
      | some latestYearData => latestYearData.taxRates
      | none => c.defaultTaxRates
    else c.defaultTaxRates

/-- Sample rates used to exercise the config-fallback claim. -/
def sampleRates2026 : TaxRates :=
  { residential := 12, commercial := 25 }

/-- Sample static default rates. -/
def sampleDefaultRates : TaxRates :=
  { residential := 1, commercial := 2 }

/-- A configuration with only fiscal year 2026 populated. -/
def sampleConfig2026 : FiscalDataConfig :=
  { fiscalYears := [(2026, { taxRates := sampleRates2026 })]
    defaultTaxRates := sampleDefaultRates }

/-- A JS attribute value as it reaches prioritizeValue: absent, null, a
string, or a number. -/
inductive JSValue where
  | undef
  | null
  | str (s : String)
  | num (n : Int)
deriving DecidableEq

/-- The isValid predicate inside prioritizeValue: not null, not undefined,
and for non-numbers not the empty string (zero is a valid number). -/
def isValidValue : JSValue → Bool
  | JSValue.undef => false
  | JSValue.null => false
  | JSValue.num _ => true
  | JSValue.str s => !(s == "")

/-- Embedding of prioritizeValue from functions/src/index.ts. -/
def prioritizeValue (residentialValue condoValue : JSValue) : JSValue :=
  if isValidValue residentialValue then residentialValue
  else if isValidValue condoValue then condoValue
  else JSValue.undef

/-- Character class of the abbreviation regex: uppercase letters, digits,
space, period, comma, apostrophe (code 39), ampersand, hyphen. -/
def isAbbrevChar (c : Char) : Bool :=
  c.isUpper || c.isDigit || c == ' ' || c == '.' || c == ',' ||
    c.toNat == 39 || c == '&' || c == '-'

/-- JS word character for the word-boundary regex. -/
def isWordChar (c : Char) : Bool :=
  c.isAlpha || c.isDigit || c == '_'

/-- Uppercase every word character that starts a word (replace of the
word-boundary regex); the boolean tracks whether the previous character
was a word character. -/
def capWords : Bool → List Char → List Char
  | _, [] => []
  | prevW, c :: cs =>
    (if isWordChar c && !prevW then c.toUpper else c) :: capWords (isWordChar c) cs

/-- Embedding of toProperCase from functions/src/index.ts: empty and blank
strings map to empty; short all-caps-class strings are kept verbatim as
abbreviations; otherwise lowercase then capitalize each word start. -/
def toProperCase (s : String) : String :=
  if s = "" ∨ jsTrim s = "" then ""
  else if s.data.all isAbbrevChar ∧ s.length ≤ 6 then s
  else String.mk (capWords false (jsToLower s).data)

/-- Index of the first occurrence of pat in a character list (String
indexOf), none when absent. -/
def findSub (pat : List Char) : List Char → Option Nat
  | [] => none
  | c :: cs =>
    if pat.isPrefixOf (c :: cs) then some 0
    else (findSub pat cs).map (· + 1)

/-- Embedding of parseAfterDash from functions/src/index.ts.  null and
undefined inputs are both modelled by none.  Note the source searches with
indexOf, i.e. the FIRST occurrence of the separator. -/
def parseAfterDash (value : Option String) : String :=
  match value with
  | none => ""
  | some s =>
    if s = "" ∨ jsTrim s = "" then ""
    else
      match findSub " - ".data s.data with
      | some idx => toProperCase (jsTrim (String.mk (s.data.drop (idx + 3))))
      | none => toProperCase (jsTrim s)

/-- The foundation field of the merged property record
(fetchPropertyDetailsByParcelIdHelper): prioritize the residential value
over the condo value, each dash-stripped and proper-cased, with the JS
falsy-fallback to a placeholder. -/
def mergedFoundation (res condo : Option String) : String :=
  match prioritizeValue (JSValue.str (toProperCase (parseAfterDash res)))
      (JSValue.str (toProperCase (parseAfterDash condo))) with
  | JSValue.str s => if s == "" then "Not available" else s
  | _ => "Not available"

/-- One page of an EGIS layer query response: the feature array (features
abstracted to identifiers) and the exceeded-transfer-limit flag (absent
in the JSON is modelled as false, the two being indistinguishable to the
loop's truthiness test). -/
structure EGISPage where
  features : List Nat
  exceededTransferLimit : Bool
deriving DecidableEq

/-- Embedding of the pagination loop of fetchEGISData: the n-th entry of
the page list is the response to the n-th request.  Returns the list of
offsets requested and the accumulated features.  A request is counted
before its response is examined; an empty page or an unset flag ends the
loop; otherwise the offset advances by the page's feature count. -/
def fetchEGISPages : Nat → List EGISPage → List Nat × List Nat
  | _, [] => ([], [])
  | off, p :: rest =>
    if p.features.isEmpty then ([off], [])
    else if p.exceededTransferLimit then
      let r := fetchEGISPages (off + p.features.length) rest
      (off :: r.1, p.features ++ r.2)
    else ([off], p.features)

/-- The expected request offsets: each page's offset is the previous offset
plus the previous page's feature count. -/
def pageOffsets : Nat → List EGISPage → List Nat
  | _, [] => []
  | off, p :: rest => off :: pageOffsets (off + p.features.length) rest

lemma getNextMonday_ge (t : Nat) : t ≤ getNextMonday t := by
  unfold getNextMonday
  split_ifs <;> omega

lemma getNextMonday_le (t : Nat) : getNextMonday t ≤ t + 2 * msPerDay := by
  unfold getNextMonday
  split_ifs <;> omega

lemma daysBeforeYear_lb (y : Nat) : 146097 * y ≤ 400 * daysBeforeYear y + 396 := by
  unfold daysBeforeYear; omega

lemma daysBeforeYear_ub (y : Nat) : 400 * daysBeforeYear y ≤ 146097 * y + 700 := by
  unfold daysBeforeYear; omega

lemma yearFromDays_bracket (d : Nat) :
    daysBeforeYear (yearFromDays d) ≤ d ∧ d < daysBeforeYear (yearFromDays d + 1) := by
  unfold yearFromDays
  dsimp only
  set a := 400 * d / 146097 with ha
  have h1 : 146097 * a ≤ 400 * d := by omega
  have h2 : 400 * d < 146097 * (a + 1) := by omega
  rcases Nat.eq_zero_or_pos a with h0 | hpos
  · rw [h0]
    have e0 : daysBeforeYear 0 = 0 := rfl
    have e1 : daysBeforeYear (0 + 1) = 366 := rfl
    have e2 : daysBeforeYear (0 + 1 + 1) = 731 := rfl
    have e3 : daysBeforeYear (0 - 1) = 0 := rfl
    have e4 : daysBeforeYear (0 - 1 + 1) = 366 := rfl
    split_ifs <;> omega
  · have hc : a - 1 + 1 = a := Nat.sub_add_cancel hpos
    have hub1 := daysBeforeYear_ub (a - 1)
    have hlb2 := daysBeforeYear_lb (a + 2)
    split_ifs with hc1 hc2
    · refine ⟨by omega, ?_⟩
      rw [hc]; exact hc1
    · exact ⟨by omega, hc2⟩
    · refine ⟨by omega, ?_⟩
      show d < daysBeforeYear (a + 2)
      omega

lemma getFullYear_bracket (t : Nat) :
    msPerDay * daysBeforeYear (getFullYear t) ≤ t ∧
    t < msPerDay * daysBeforeYear (getFullYear t + 1) := by
  have h := yearFromDays_bracket (t / msPerDay)
  unfold getFullYear msPerDay at *
  omega

lemma isLeap_iff (y : Nat) :
    isLeap y = true ↔ ((y % 4 = 0 ∧ y % 100 ≠ 0) ∨ y % 400 = 0) := by
  simp [isLeap, Bool.or_eq_true, Bool.and_eq_true, beq_iff_eq, bne_iff_ne]

lemma daysBeforeYear_succ (y : Nat) :
    daysBeforeYear (y + 1) = daysBeforeYear y + 365 + (if isLeap y then 1 else 0) := by
  have h := isLeap_iff y
  unfold daysBeforeYear
  split_ifs with hl
  · rw [h] at hl; omega
  · rw [h] at hl; omega

lemma daysBeforeYear_strictMono : StrictMono daysBeforeYear := by
  apply strictMono_nat_of_lt_succ
  intro n
  have := daysBeforeYear_succ n
  split_ifs at this <;> omega

lemma getFullYear_eq_of (t Y : Nat)
    (h1 : msPerDay * daysBeforeYear Y ≤ t)
    (h2 : t < msPerDay * daysBeforeYear (Y + 1)) :
    getFullYear t = Y := by
  have hb := getFullYear_bracket t
  by_contra hne
  rcases Nat.lt_or_ge (getFullYear t) Y with h | h
  · have hm : daysBeforeYear (getFullYear t + 1) ≤ daysBeforeYear Y :=
      daysBeforeYear_strictMono.monotone (by omega)
    have := hb.2
    have : msPerDay * daysBeforeYear (getFullYear t + 1) ≤ msPerDay * daysBeforeYear Y :=
      Nat.mul_le_mul_left _ hm
    omega
  · have hY : Y < getFullYear t := by omega
    have hm : daysBeforeYear (Y + 1) ≤ daysBeforeYear (getFullYear t) :=
      daysBeforeYear_strictMono.monotone (by omega)
    have := hb.1
    have : msPerDay * daysBeforeYear (Y + 1) ≤ msPerDay * daysBeforeYear (getFullYear t) :=
      Nat.mul_le_mul_left _ hm
    omega

lemma daysInMonth_eq (y m : Nat) : daysInMonth y m = daysInMonthB m (isLeap y) := by
  unfold daysInMonth daysInMonthB
  rcases m with _ | _ | m <;> rfl

lemma daysInMonthB_le :
    ∀ l : Bool, ∀ m : Nat, m < 12 → daysInMonthB m l ≤ 31 := by decide

lemma dayWithinYear_lt_dec :
    ∀ l : Bool, ∀ m : Nat, m < 12 → ∀ d : Nat, d < 32 → 1 ≤ d →
      d ≤ daysInMonthB m l →
      daysBeforeMonth m l + (d - 1) < 365 + (if l then 1 else 0) := by decide

lemma dayWithinYear_lt (y m d : Nat) (hm : m < 12) (hd1 : 1 ≤ d)
    (hd2 : d ≤ daysInMonth y m) :
    daysBeforeMonth m (isLeap y) + (d - 1) < 365 + (if isLeap y then 1 else 0) := by
  rw [daysInMonth_eq] at hd2
  have hb := daysInMonthB_le (isLeap y) m hm
  exact dayWithinYear_lt_dec (isLeap y) m hm d (by omega) hd1 hd2

lemma getFullYear_mk (y m d ms : Nat) (h : ValidCivil y m d ms) :
    getFullYear (mkInstant y m d ms) = y := by
  obtain ⟨hm, hd1, hd2, hms⟩ := h
  have hlt := dayWithinYear_lt y m d hm hd1 hd2
  have hs := daysBeforeYear_succ y
  apply getFullYear_eq_of
  · unfold mkInstant mkDateMs dayNumber
    nlinarith [Nat.zero_le (daysBeforeMonth m (isLeap y) + (d - 1))]
  · unfold mkInstant mkDateMs dayNumber
    unfold msPerDay at *
    split_ifs at hs hlt <;> omega

lemma monthFromDoy_correct_dec :
    ∀ l : Bool, ∀ m : Nat, m < 12 → ∀ d : Nat, d < 32 → 1 ≤ d →
      d ≤ daysInMonthB m l →
      monthFromDoy (daysBeforeMonth m l + (d - 1)) l = m := by decide

lemma monthFromDoy_correct (l : Bool) (m d : Nat) (hm : m < 12) (hd1 : 1 ≤ d)
    (hd2 : d ≤ daysInMonthB m l) :
    monthFromDoy (daysBeforeMonth m l + (d - 1)) l = m := by
  have hb := daysInMonthB_le l m hm
  exact monthFromDoy_correct_dec l m hm d (by omega) hd1 hd2

lemma doy_of_mk (y m d ms : Nat) (h : ValidCivil y m d ms) :
    mkInstant y m d ms / msPerDay - daysBeforeYear y
      = daysBeforeMonth m (isLeap y) + (d - 1) := by
  obtain ⟨hm, hd1, hd2, hms⟩ := h
  unfold mkInstant mkDateMs dayNumber msPerDay at *
  omega

lemma getMonth_mk (y m d ms : Nat) (h : ValidCivil y m d ms) :
    getMonth (mkInstant y m d ms) = m := by
  have hy := getFullYear_mk y m d ms h
  have hdoy := doy_of_mk y m d ms h
  obtain ⟨hm, hd1, hd2, hms⟩ := h
  rw [daysInMonth_eq] at hd2
  unfold getMonth
  rw [hy, hdoy]
  exact monthFromDoy_correct (isLeap y) m d hm hd1 hd2

/-- C5: getNextMonday shifts a Saturday date forward by exactly 2 days and a
Sunday date by exactly 1 day, leaves every other weekday unchanged, and in
the two shifted cases the result falls on a Monday. -/
theorem nextMonday_shift_rule (t : Nat) :
    getNextMonday t =
      (if getDay t = 6 then t + 2 * msPerDay
       else if getDay t = 0 then t + msPerDay
       else t)
    ∧ (getDay t = 6 → getDay (getNextMonday t) = 1)
    ∧ (getDay t = 0 → getDay (getNextMonday t) = 1) := by
  refine ⟨rfl, ?_, ?_⟩ <;>
    · intro h
      unfold getNextMonday getDay msPerDay at *
      split_ifs <;> omega

/-- C5 witness: Feb 1 of 2025 is a Saturday and is shifted to Monday Feb 3;
Jun 1 of 2025 is a Sunday and is shifted to Monday Jun 2; Apr 1 of 2026 is
a weekday (Wednesday) and is left unchanged. -/
theorem nextMonday_shift_rule_witness :
    getDay (mkDateMs 2025 1 1) = 6
    ∧ getNextMonday (mkDateMs 2025 1 1) = mkDateMs 2025 1 1 + 2 * msPerDay
    ∧ getDay (getNextMonday (mkDateMs 2025 1 1)) = 1
    ∧ getDay (mkDateMs 2025 5 1) = 0
    ∧ getNextMonday (mkDateMs 2025 5 1) = mkDateMs 2025 5 1 + msPerDay
    ∧ getDay (getNextMonday (mkDateMs 2025 5 1)) = 1
    ∧ getDay (mkDateMs 2026 3 1) = 3
    ∧ getNextMonday (mkDateMs 2026 3 1) = mkDateMs 2026 3 1 := by
  have hsat := (nextMonday_shift_rule (mkDateMs 2025 1 1)).2.1 (by decide)
  have hsun := (nextMonday_shift_rule (mkDateMs 2025 5 1)).2.2 (by decide)
  refine ⟨by decide, by decide, hsat, by decide, by decide, hsun, by decide, by decide⟩

/-- C6: for every year the temporal anchors are ordered: Jan 1 strictly
precedes the abatement deadline, which is on or before the grace deadline
(deadline + 28 days) and strictly before the Mar 1 exemptions-in-progress
anchor, and both the abatement deadline and the exemption deadline strictly
precede the Jul 1 fiscal-year start.  This covers in particular all years
2020 through 2035. -/
theorem anchor_monotonicity (y : Nat) :
    NEW_APPLICATION_PERIOD_BEGINS.getDate y < ABATEMENT_APPLICATION_DEADLINE.getDate y
    ∧ ABATEMENT_APPLICATION_DEADLINE.getDate y ≤ ABATEMENT_GRACE_PERIOD_DEADLINE.getDate y
    ∧ ABATEMENT_APPLICATION_DEADLINE.getDate y < EXEMPTIONS_IN_PROGRESS.getDate y
    ∧ ABATEMENT_APPLICATION_DEADLINE.getDate y < NEW_FY_PRELIMINARY_TAX_PERIOD_BEGINS.getDate y
    ∧ EXEMPTION_APPLICATION_DEADLINE.getDate y < NEW_FY_PRELIMINARY_TAX_PERIOD_BEGINS.getDate y := by
  simp only [NEW_APPLICATION_PERIOD_BEGINS, ABATEMENT_APPLICATION_DEADLINE,
    ABATEMENT_GRACE_PERIOD_DEADLINE, EXEMPTIONS_IN_PROGRESS,
    EXEMPTION_APPLICATION_DEADLINE, NEW_FY_PRELIMINARY_TAX_PERIOD_BEGINS,
    getNextMonday, mkDateMs, dayNumber, daysBeforeMonth, monthOffset, msPerDay, getDay]
  split_ifs <;> simp_all <;> omega

lemma jan1_getDate (y : Nat) :
    NEW_APPLICATION_PERIOD_BEGINS.getDate y = msPerDay * daysBeforeYear y := by
  simp [NEW_APPLICATION_PERIOD_BEGINS, mkDateMs, dayNumber, daysBeforeMonth, monthOffset]

lemma jan1_bracket (t : Nat) :
    NEW_APPLICATION_PERIOD_BEGINS.getDate (getFullYear t) ≤ t ∧
    t < NEW_APPLICATION_PERIOD_BEGINS.getDate (getFullYear t + 1) := by
  rw [jan1_getDate, jan1_getDate]
  exact getFullYear_bracket t

lemma anchor_order (y : Nat) :
    NEW_APPLICATION_PERIOD_BEGINS.getDate y < ABATEMENT_APPLICATION_DEADLINE.getDate y
    ∧ ABATEMENT_APPLICATION_DEADLINE.getDate y < NEW_FY_PRELIMINARY_TAX_PERIOD_BEGINS.getDate y
    ∧ NEW_APPLICATION_PERIOD_BEGINS.getDate y ≤ EXEMPTION_APPLICATION_DEADLINE_DATE.getDate y
    ∧ EXEMPTION_APPLICATION_DEADLINE_DATE.getDate y < NEW_FY_PRELIMINARY_TAX_PERIOD_BEGINS.getDate y
    ∧ NEW_FY_PRELIMINARY_TAX_PERIOD_BEGINS.getDate y < NEW_APPLICATION_PERIOD_BEGINS.getDate (y + 1) := by
  have hs := daysBeforeYear_succ y
  simp only [NEW_APPLICATION_PERIOD_BEGINS, ABATEMENT_APPLICATION_DEADLINE,
    EXEMPTION_APPLICATION_DEADLINE_DATE, NEW_FY_PRELIMINARY_TAX_PERIOD_BEGINS,
    getNextMonday, mkDateMs, dayNumber, daysBeforeMonth, monthOffset, msPerDay, getDay]
  split_ifs at hs ⊢ <;> simp_all <;> omega

/-- C2: getAbatementPhase selects its branch and deadline from the date
alone; the reference-year parameter influences only the message parameters,
so any two year arguments yield the same phase tag and the same deadline. -/
theorem abatementPhase_year_independent (t y1 y2 : Nat) (p : Option String) :
    (getAbatementPhase t y1 p).phase = (getAbatementPhase t y2 p).phase
    ∧ (getAbatementPhase t y1 p).deadline = (getAbatementPhase t y2 p).deadline := by
  unfold getAbatementPhase
  dsimp only
  split_ifs <;> simp

/-- C10: every date lands in one of the three dated branches of
getAbatementPhase, whose windows are determined by the year of the date:
open on the closed interval from Jan 1 to the abatement deadline,
after_deadline strictly between the deadline and Jul 1, preliminary from
Jul 1 up to (excluding) next Jan 1; the deadline field is always populated
and the catch-all branch (empty message parameters, no deadline) is
unreachable. -/
theorem abatementPhase_total (t y : Nat) (p : Option String) :
    (getAbatementPhase t y p).deadline
      = some (ABATEMENT_APPLICATION_DEADLINE.getDate (getFullYear t))
    ∧ ((getAbatementPhase t y p).phase = "open"
        ↔ NEW_APPLICATION_PERIOD_BEGINS.getDate (getFullYear t) ≤ t
          ∧ t ≤ ABATEMENT_APPLICATION_DEADLINE.getDate (getFullYear t))
    ∧ ((getAbatementPhase t y p).phase = "after_deadline"
        ↔ ABATEMENT_APPLICATION_DEADLINE.getDate (getFullYear t) < t
          ∧ t < NEW_FY_PRELIMINARY_TAX_PERIOD_BEGINS.getDate (getFullYear t))
    ∧ ((getAbatementPhase t y p).phase = "preliminary"
        ↔ NEW_FY_PRELIMINARY_TAX_PERIOD_BEGINS.getDate (getFullYear t) ≤ t
          ∧ t < NEW_APPLICATION_PERIOD_BEGINS.getDate (getFullYear t + 1))
    ∧ (getAbatementPhase t y p).message ≠ AbatementMessage.mfallback := by
  obtain ⟨hlo, hhi⟩ := jan1_bracket t
  obtain ⟨ho1, ho2, _, _, ho5⟩ := anchor_order (getFullYear t)
  unfold getAbatementPhase
  dsimp only
  split_ifs with h1 h2 h3
  · refine ⟨rfl, ?_, ?_, ?_, by simp⟩ <;> simp <;> omega
  · refine ⟨rfl, ?_, ?_, ?_, by simp⟩ <;> simp <;> omega
  · refine ⟨rfl, ?_, ?_, ?_, by simp⟩ <;> simp <;> omega
  · exfalso
    omega

/-- C1: for every year and exemption type, getExemptionPhase at exactly the
exemption deadline instant returns phase open (the open branch is checked
before after_deadline, whose lower bound is also inclusive), and at any
instant strictly after the deadline and strictly before Jul 1 of the year
it returns after_deadline.  Instantiated at year 2026 and type Residential
by the witness. -/
theorem exemptionPhase_deadline_boundary (y g t : Nat) (etype : String)
    (h1 : EXEMPTION_APPLICATION_DEADLINE_DATE.getDate y < t)
    (h2 : t < NEW_FY_PRELIMINARY_TAX_PERIOD_BEGINS.getDate y) :
    (getExemptionPhase (EXEMPTION_APPLICATION_DEADLINE_DATE.getDate y) y g etype).phase
      = "open"
    ∧ (getExemptionPhase t y g etype).phase = "after_deadline" := by
  obtain ⟨_, _, he1, he2, _⟩ := anchor_order y
  constructor
  · unfold getExemptionPhase
    dsimp only
    split_ifs with hc1 hc2 <;> first | rfl | omega
  · unfold getExemptionPhase
    dsimp only
    split_ifs with hc1 hc2 hc3 <;> first | rfl | omega

/-- C1 witness: the 2026 exemption deadline (Wednesday Apr 1, 2026, not
shifted) classifies as open for the Residential type, and May 1, 2026
(after the deadline, before Jul 1) classifies as after_deadline. -/
theorem exemptionPhase_deadline_boundary_witness :
    EXEMPTION_APPLICATION_DEADLINE_DATE.getDate 2026 < mkDateMs 2026 4 1
    ∧ mkDateMs 2026 4 1 < NEW_FY_PRELIMINARY_TAX_PERIOD_BEGINS.getDate 2026
    ∧ (getExemptionPhase (EXEMPTION_APPLICATION_DEADLINE_DATE.getDate 2026) 2026 0
        "Residential").phase = "open"
    ∧ (getExemptionPhase (mkDateMs 2026 4 1) 2026 0 "Residential").phase
        = "after_deadline" := by
  have h := exemptionPhase_deadline_boundary 2026 0 (mkDateMs 2026 4 1) "Residential"
    (by decide) (by decide)
  exact ⟨by decide, by decide, h.1, h.2⟩

/-- C3: for every valid calendar date, the fiscal-year functions return
year + 1 with quarter 1 for dates in July through December (0-indexed
month at least 6) and the calendar year itself with quarter 3 for dates in
January through June; both functions are total Lean functions, so they
never fail. -/
theorem fiscalYear_split (y m d ms : Nat) (h : ValidCivil y m d ms) :
    (6 ≤ m → getFiscalYear (mkInstant y m d ms) = y + 1
      ∧ getFiscalYearAndQuarter (mkInstant y m d ms)
          = { year := y + 1, quarter := "1" })
    ∧ (m < 6 → getFiscalYear (mkInstant y m d ms) = y
      ∧ getFiscalYearAndQuarter (mkInstant y m d ms)
          = { year := y, quarter := "3" }) := by
  have hy := getFullYear_mk y m d ms h
  have hm := getMonth_mk y m d ms h
  unfold getFiscalYear getFiscalYearAndQuarter
  rw [hy, hm]
  constructor <;> intro h6
  · rw [if_pos h6, if_neg (by omega)]
    exact ⟨rfl, rfl⟩
  · rw [if_neg (by omega), if_pos h6]
    exact ⟨rfl, rfl⟩

/-- C3 witness: Aug 15, 2026 (month index 7) maps to fiscal year 2027
quarter 1; Mar 15, 2026 (month index 2) maps to fiscal year 2026
quarter 3. -/
theorem fiscalYear_split_witness :
    getFiscalYear (mkInstant 2026 7 15 0) = 2027
    ∧ getFiscalYearAndQuarter (mkInstant 2026 7 15 0)
        = { year := 2027, quarter := "1" }
    ∧ getFiscalYear (mkInstant 2026 2 15 0) = 2026
    ∧ getFiscalYearAndQuarter (mkInstant 2026 2 15 0)
        = { year := 2026, quarter := "3" } := by
  have h1 := (fiscalYear_split 2026 7 15 0 (by decide)).1 (by decide)
  have h2 := (fiscalYear_split 2026 2 15 0 (by decide)).2 (by decide)
  exact ⟨h1.1, h1.2, h2.1, h2.2⟩

lemma foldr_max_mem : ∀ xs : List Nat, xs ≠ [] → xs.foldr max 0 ∈ xs := by
  intro xs
  induction xs with
  | nil => intro h; exact absurd rfl h
  | cons x rest ih =>
    intro _
    cases rest with
    | nil => simp
    | cons z zs =>
      have hmem := ih (by simp)
      simp only [List.foldr_cons] at hmem ⊢
      rcases Nat.le_total x (max z (zs.foldr max 0)) with hle | hle
      · rw [List.mem_cons]
        right
        rw [max_eq_right hle]
        exact hmem
      · rw [List.mem_cons]
        left
        exact max_eq_left hle

lemma lookup_of_mem_keys {β : Type} (k : Nat) (l : List (Nat × β))
    (h : k ∈ l.map Prod.fst) : ∃ b, l.lookup k = some b := by
  induction l with
  | nil => simp at h
  | cons p rest ih =>
    rw [List.map_cons, List.mem_cons] at h
    by_cases hk : k = p.1
    · exact ⟨p.2, by simp [List.lookup, hk]⟩
    · have : k ∈ rest.map Prod.fst := by
        rcases h with h | h
        · exact absurd h hk
        · exact h
      obtain ⟨b, hb⟩ := ih this
      refine ⟨b, ?_⟩
      rw [List.lookup]
      have : (k == p.1) = false := by simp [hk]
      rw [this]
      exact hb

/-- C4: getTaxRates returns the configured entry when the requested fiscal
year is present, forward-fills from the latest configured year when the
request is strictly beyond it, and otherwise (a gap year or a year before
the earliest configured year) returns the static defaults. -/
theorem taxRates_lookup_policy (c : FiscalDataConfig) (fy : Nat) :
    (∀ dta, c.fiscalYears.lookup fy = some dta → getTaxRates c fy = dta.taxRates)
    ∧ (c.fiscalYears.lookup fy = none → getLatestFiscalYear c < fy →
        c.fiscalYears ≠ [] →
        ∃ dta, c.fiscalYears.lookup (getLatestFiscalYear c) = some dta
          ∧ getTaxRates c fy = dta.taxRates)
    ∧ (c.fiscalYears.lookup fy = none → fy ≤ getLatestFiscalYear c →
        getTaxRates c fy = c.defaultTaxRates) := by
  refine ⟨?_, ?_, ?_⟩
  · intro dta hdta
    unfold getTaxRates
    rw [hdta]
  · intro hnone hlt hne
    have hmem : getLatestFiscalYear c ∈ c.fiscalYears.map Prod.fst := by
      unfold getLatestFiscalYear
      exact foldr_max_mem _ (by simpa using hne)
    obtain ⟨dta, hdta⟩ := lookup_of_mem_keys _ _ hmem
    refine ⟨dta, hdta, ?_⟩
    unfold getTaxRates
    rw [hnone, if_pos hlt, hdta]
  · intro hnone hle
    unfold getTaxRates
    rw [hnone, if_neg (by omega)]

/-- C4 witness: with only fiscal year 2026 configured, year 2030 resolves
to the 2026 rates (forward-fill) and year 2015 resolves to the static
defaults. -/
theorem taxRates_lookup_policy_witness :
    getTaxRates sampleConfig2026 2030 = sampleRates2026
    ∧ getTaxRates sampleConfig2026 2015 = sampleDefaultRates
    ∧ getTaxRates sampleConfig2026 2026 = sampleRates2026 := by
  obtain ⟨dta, hdta, heq⟩ := (taxRates_lookup_policy sampleConfig2026 2030).2.1
    (by decide) (by decide) (by simp [sampleConfig2026])
  have hpast := (taxRates_lookup_policy sampleConfig2026 2015).2.2
    (by decide) (by decide)
  have hexact := (taxRates_lookup_policy sampleConfig2026 2026).1
    { taxRates := sampleRates2026 } (by decide)
  have hd : dta = { taxRates := sampleRates2026 } := by
    have : sampleConfig2026.fiscalYears.lookup (getLatestFiscalYear sampleConfig2026)
        = some { taxRates := sampleRates2026 } := by decide
    rw [this] at hdta
    exact (Option.some.inj hdta).symm
  refine ⟨?_, hpast, hexact⟩
  rw [heq, hd]

/-- C7: prioritizeValue returns the residential value whenever it is
present (not null, not undefined, not the empty string; numeric zero is
present), otherwise the condo value when present, otherwise undefined
(the attribute is omitted); consequently the merged foundation field is
"Brick" when residential is empty and condo is "Brick", and "Concrete"
whenever residential is "Concrete", whatever the condo value. -/
theorem prioritizeValue_residential_wins (r c : JSValue) (condoStr : Option String) :
    (isValidValue r = true → prioritizeValue r c = r)
    ∧ (isValidValue r = false → isValidValue c = true → prioritizeValue r c = c)
    ∧ (isValidValue r = false → isValidValue c = false →
        prioritizeValue r c = JSValue.undef)
    ∧ (∀ s : String, isValidValue (JSValue.str s) = true ↔ s ≠ "")
    ∧ isValidValue JSValue.null = false
    ∧ isValidValue JSValue.undef = false
    ∧ (∀ n : Int, isValidValue (JSValue.num n) = true)
    ∧ mergedFoundation (some "") (some "Brick") = "Brick"
    ∧ mergedFoundation (some "Concrete") condoStr = "Concrete" := by
  refine ⟨?_, ?_, ?_, ?_, rfl, rfl, fun n => rfl, by decide, ?_⟩
  · intro h
    unfold prioritizeValue
    rw [if_pos h]
  · intro h1 h2
    unfold prioritizeValue
    rw [if_neg (by simp [h1]), if_pos h2]
  · intro h1 h2
    unfold prioritizeValue
    rw [if_neg (by simp [h1]), if_neg (by simp [h2])]
  · intro s
    simp [isValidValue]
  · unfold mergedFoundation
    have h : toProperCase (parseAfterDash (some "Concrete")) = "Concrete" := by decide
    rw [h]
    unfold prioritizeValue
    rw [if_pos (by decide)]
    decide

/-- C7 witness: a present residential value beats condo; an empty
residential string yields the condo value; two absent-like values yield
undefined; numeric zero is treated as present. -/
theorem prioritizeValue_residential_wins_witness :
    prioritizeValue (JSValue.str "Concrete") (JSValue.str "Brick")
      = JSValue.str "Concrete"
    ∧ prioritizeValue (JSValue.str "") (JSValue.str "Brick") = JSValue.str "Brick"
    ∧ prioritizeValue (JSValue.str "") JSValue.null = JSValue.undef
    ∧ prioritizeValue (JSValue.num 0) (JSValue.str "Brick") = JSValue.num 0 := by
  have h1 := (prioritizeValue_residential_wins (JSValue.str "Concrete")
    (JSValue.str "Brick") none).1 (by decide)
  have h2 := (prioritizeValue_residential_wins (JSValue.str "")
    (JSValue.str "Brick") none).2.1 (by decide) (by decide)
  have h3 := (prioritizeValue_residential_wins (JSValue.str "")
    JSValue.null none).2.2.1 (by decide) (by decide)
  have h4 := (prioritizeValue_residential_wins (JSValue.num 0)
    (JSValue.str "Brick") none).1 (by decide)
  exact ⟨h1, h2, h3, h4⟩

/-- C8: the claim (and the source's own doc comment) say parseAfterDash
takes the substring after the LAST " - " separator, but the implementation
searches with indexOf and therefore splits at the FIRST one: on
"A - B - C" it returns "B - C", not a value derived from "C".  The
null/empty and no-separator behaviors do match the claim. -/
theorem parseAfterDash_uses_first_separator :
    parseAfterDash (some "A - B - C") = "B - C"
    ∧ parseAfterDash (some "A - B - C") ≠ "C"
    ∧ parseAfterDash none = ""
    ∧ parseAfterDash (some "") = ""
    ∧ parseAfterDash (some "Brick") = "Brick" := by decide

lemma pageOffsets_length : ∀ (l : List EGISPage) (start : Nat),
    (pageOffsets start l).length = l.length := by
  intro l
  induction l with
  | nil => intro start; rfl
  | cons p rest ih =>
    intro start
    simp only [pageOffsets, List.length_cons]
    rw [ih]

lemma pageOffsets_chain : ∀ (l : List EGISPage) (start : Nat),
    (∀ p ∈ l, p.features ≠ []) → List.Chain' (· < ·) (pageOffsets start l) := by
  intro l
  induction l with
  | nil => intro start _; simp [pageOffsets]
  | cons p rest ih =>
    intro start h
    cases rest with
    | nil => simp [pageOffsets]
    | cons q rest2 =>
      simp only [pageOffsets]
      rw [List.chain'_cons]
      constructor
      · have hne : p.features ≠ [] := h p (by simp)
        have hpos : 0 < p.features.length := List.length_pos.mpr hne
        omega
      · have h2 : ∀ x ∈ q :: rest2, x.features ≠ [] := fun x hx => h x (by simp [hx])
        have := ih (start + p.features.length) h2
        simp only [pageOffsets] at this
        exact this

lemma fetchEGISPages_run (front : List EGISPage) (lastp : EGISPage)
    (rest : List EGISPage) :
    ∀ start : Nat,
    (∀ p ∈ front, p.exceededTransferLimit = true ∧ p.features ≠ []) →
    lastp.exceededTransferLimit = false →
    lastp.features ≠ [] →
    fetchEGISPages start (front ++ lastp :: rest)
      = (pageOffsets start (front ++ [lastp]),
         ((front ++ [lastp]).map EGISPage.features).join) := by
  induction front with
  | nil =>
    intro start _ hlast hlastne
    obtain ⟨a, as, hfe⟩ : ∃ a as, lastp.features = a :: as := by
      cases hh : lastp.features with
      | nil => exact absurd hh hlastne
      | cons a as => exact ⟨a, as, rfl⟩
    simp [fetchEGISPages, pageOffsets, hfe, hlast]
  | cons p front2 ih =>
    intro start h hlast hlastne
    obtain ⟨hp, hpne⟩ := h p (by simp)
    obtain ⟨a, as, hfe⟩ : ∃ a as, p.features = a :: as := by
      cases hh : p.features with
      | nil => exact absurd hh hpne
      | cons a as => exact ⟨a, as, rfl⟩
    have ih' := ih (start + p.features.length)
      (fun q hq => h q (by simp [hq])) hlast hlastne
    rw [hfe] at ih'
    simp only [List.cons_append, fetchEGISPages, pageOffsets, hfe, hp,
      List.isEmpty_cons, Bool.false_eq_true, if_false, if_true, ite_true, ite_false]
    simp only [List.append_eq] at ih' ⊢
    rw [ih']
    simp [hfe]

/-- C9: when the first k page responses carry exceededTransferLimit true
and page k+1 does not, with every page non-empty, fetchEGISData issues
exactly k+1 requests, at offsets starting at 0 and each incremented by the
previous page's feature count (hence strictly increasing), and returns the
concatenation of the k+1 pages' feature arrays in page order; pages beyond
the first flagless one are never requested. -/
theorem pagination_protocol (front : List EGISPage) (lastp : EGISPage)
    (rest : List EGISPage)
    (hfront : ∀ p ∈ front, p.exceededTransferLimit = true ∧ p.features ≠ [])
    (hlast : lastp.exceededTransferLimit = false)
    (hlastne : lastp.features ≠ []) :
    fetchEGISPages 0 (front ++ lastp :: rest)
      = (pageOffsets 0 (front ++ [lastp]),
         ((front ++ [lastp]).map EGISPage.features).join)
    ∧ (pageOffsets 0 (front ++ [lastp])).length = front.length + 1
    ∧ List.Chain' (· < ·) (pageOffsets 0 (front ++ [lastp])) := by
  refine ⟨fetchEGISPages_run front lastp rest 0 hfront hlast hlastne, ?_, ?_⟩
  · rw [pageOffsets_length]
    simp
  · apply pageOffsets_chain
    intro x hx
    rcases List.mem_append.mp hx with h | h
    · exact (hfront x h).2
    · simp only [List.mem_singleton] at h
      rw [h]
      exact hlastne

/-- C9 witness: the response sequence [true, true, false] with page sizes
2, 1, 2 produces exactly 3 requests at offsets 0, 2, 3 and the
concatenated features of all three pages. -/
theorem pagination_protocol_witness :
    fetchEGISPages 0
        [{ features := [10, 11], exceededTransferLimit := true },
         { features := [12], exceededTransferLimit := true },
         { features := [13, 14], exceededTransferLimit := false }]
      = ([0, 2, 3], [10, 11, 12, 13, 14]) := by
  have h := pagination_protocol
    [{ features := [10, 11], exceededTransferLimit := true },
     { features := [12], exceededTransferLimit := true }]
    { features := [13, 14], exceededTransferLimit := false } []
    (by decide) (by decide) (by decide)
  exact h.1.trans (by decide)
